import Mathlib

/-
Verification of the circular-scroll input processors of this repository.

The repository contains two near-identical C modules:
  * src/modules/circular_scroll.c            (pseudo_angle, circular_scroll_process, gain 10)
  * src/modules/circular_scroll/circular_scroll.c
                                             (compute_pseudo_angle, trackpad_scroll_process, gain 1)

This file gives a shallow embedding of both modules over the mathematical
integers, with all C machine-integer conversions made explicit, and proves
or refutes the specification claims about them.

Modelling conventions for the C semantics:
  * int16_t / uint16_t / int / uint32-typed intermediate values are carried
    as `Int`, and every C conversion or arithmetic step that reduces a value
    modulo a type width is made explicit with the functions `u16`, `u32`,
    `i16`, `i32` below.
  * Narrowing conversions to a signed type whose value does not fit
    (implementation-defined in C), and signed `int` overflow (undefined in
    C), are modelled as two's-complement wraparound, which is what the
    compilers targeted by this firmware produce.  The theorems below about
    overflow never rely on the wrapped values being "correct": where a step
    leaves its type's range we report that as a refutation of the
    no-overflow claims.
  * C unsigned division and signed division of nonnegative operands are
    floor division; the one signed division in the code, `(delta * gain) /
    1024`, truncates toward zero and is modelled with `Int.tdiv`.
  * The event-struct plumbing (event-type guard, writing dx = 0, writing
    the scroll value into the vertical field, retagging the event as a
    scroll event, returning 1) is modelled by the function result: `none`
    means the event was left alone and 0 returned, `some v` means the event
    was rewritten into a scroll event of value `v` and 1 returned.
-/

/-- Conversion of an `Int` to the value of a C `uint16_t`: reduction mod 2^16. -/
def u16 (x : Int) : Int := x % 65536

/-- Conversion of an `Int` to the value of a C 32-bit `unsigned int`: reduction mod 2^32. -/
def u32 (x : Int) : Int := x % 4294967296

/-- Conversion of an `Int` to the value of a C `int16_t`: two's-complement
wraparound into [-32768, 32767]. -/
def i16 (x : Int) : Int := (x + 32768) % 65536 - 32768

/-- Conversion of an `Int` to the value of a C 32-bit signed `int` /
`int32_t`: two's-complement wraparound into [-2^31, 2^31 - 1]. -/
def i32 (x : Int) : Int := (x + 2147483648) % 4294967296 - 2147483648

/-- `pseudo_angle` from src/modules/circular_scroll.c (lines 37-55).

C source, step by step:
  * `int16_t ax = abs(dx), ay = abs(dy);` — `abs` is computed on `int` and
    narrowed to `int16_t`: `i16 |dx|` (for dx = -32768 this wraps back to
    -32768).
  * `uint16_t sum = ax + ay;` — the `int` sum converted to `uint16_t`.
  * `if (sum == 0) return 0;`
  * `uint16_t ratio = (ay * 1024U) / sum;` — `ay` is converted to
    `unsigned int` (`u32 ay`), the product is taken mod 2^32, the unsigned
    quotient is narrowed to `uint16_t`.
  * the four sign-quadrant branches, each computed in `unsigned int` and
    narrowed to `uint16_t`. -/
def pseudo_angle (dx dy : Int) : Int :=
  let ax := i16 |dx|
  let ay := i16 |dy|
  let sum := u16 (ax + ay)
  if sum = 0 then 0
  else
    let ratio := u16 (u32 (u32 ay * 1024) / sum)
    if 0 ≤ dx ∧ 0 ≤ dy then ratio
    else if dx < 0 ∧ 0 ≤ dy then u16 (1024 + u32 (1024 - ratio))
    else if dx < 0 ∧ dy < 0 then u16 (2048 + ratio)
    else u16 (3072 + u32 (1024 - ratio))

/-- `compute_pseudo_angle` from src/modules/circular_scroll/circular_scroll.c
(lines 28-48).  The C source is the same algorithm as `pseudo_angle` with
the local variables named `adx`/`ady` instead of `ax`/`ay`. -/
def compute_pseudo_angle (dx dy : Int) : Int :=
  let adx := i16 |dx|
  let ady := i16 |dy|
  let sum := u16 (adx + ady)
  if sum = 0 then 0
  else
    let ratio := u16 (u32 (u32 ady * 1024) / sum)
    if 0 ≤ dx ∧ 0 ≤ dy then ratio
    else if dx < 0 ∧ 0 ≤ dy then u16 (1024 + u32 (1024 - ratio))
    else if dx < 0 ∧ dy < 0 then u16 (2048 + ratio)
    else u16 (3072 + u32 (1024 - ratio))

/-- The per-instance tracker state: `struct circular_scroll_state` of
src/modules/circular_scroll.c and `struct trackpad_scroll_state` of
src/modules/circular_scroll/circular_scroll.c both have exactly the fields
`bool active; uint16_t prev_angle;`. -/
structure CsState where
  active : Bool
  prev_angle : Int
deriving DecidableEq

/-- The initial state: both static initializers and both init functions set
`{ .active = false, .prev_angle = 0 }`. -/
def cs_state_init : CsState := { active := false, prev_angle := 0 }

/-- The wraparound-corrected angular delta, lines 88-93 of
src/modules/circular_scroll.c (identically lines 79-85 of
src/modules/circular_scroll/circular_scroll.c):

  `int16_t delta = (int16_t)angle - (int16_t)prev_angle;` — both `uint16_t`
  values are cast to `int16_t` (wraparound for values ≥ 2^15), subtracted in
  `int`, and the difference is narrowed to `int16_t`;
  `if (delta > 2048) delta -= 4096; else if (delta < -2048) delta += 4096;`
  with the adjusted value narrowed back to `int16_t`. -/
def corrected_delta (prev angle : Int) : Int :=
  let delta := i16 (i16 angle - i16 prev)
  if delta > 2048 then i16 (delta - 4096)
  else if delta < -2048 then i16 (delta + 4096)
  else delta

/-- `circular_scroll_process` from src/modules/circular_scroll.c (lines
61-112), with the gain numerator (the literal `10` of line 100) abstracted
as a parameter so that both module instantiations are covered.

  * `int32_t mag_sq = dx * dx + dy * dy;` — computed in 32-bit signed `int`,
    modelled with the two's-complement wrap `i32` (exact whenever the
    mathematical value fits, which fails only for dx = dy = -32768);
  * dead zone: `if (mag_sq < dead_zone_sq) { active = false; return 0; }`;
  * activation: `if (!active) { active = true; prev_angle = angle; return 0; }`;
  * tracking: the corrected delta, `prev_angle = angle`, and
    `int scroll_value = (delta * gain) / 1024;` (C signed division truncates
    toward zero: `Int.tdiv`), then the event is rewritten to a scroll event
    carrying `scroll_value` (modelled as `some scroll_value`). -/
def circular_scroll_process_g (gain : Int) (st : CsState) (dx dy : Int) :
    CsState × Option Int :=
  let mag_sq := i32 (dx * dx + dy * dy)
  if mag_sq < 25 then ({ st with active := false }, none)
  else
    let angle := pseudo_angle dx dy
    if st.active = false then ({ active := true, prev_angle := angle }, none)
    else
      let delta := corrected_delta st.prev_angle angle
      let scroll_value := Int.tdiv (i32 (delta * gain)) 1024
      ({ active := true, prev_angle := angle }, some scroll_value)

/-- The concrete instantiation of src/modules/circular_scroll.c: gain numerator 10. -/
def circular_scroll_process : CsState → Int → Int → CsState × Option Int :=
  circular_scroll_process_g 10

/-- `trackpad_scroll_process` from src/modules/circular_scroll/circular_scroll.c
(lines 55-101), with the gain numerator (the literal `1` of line 89)
abstracted as a parameter.  The C source is statement-for-statement the
algorithm of `circular_scroll_process`, acting on `tp_state` instead of
`cs_state` and calling `compute_pseudo_angle`. -/
def trackpad_scroll_process_g (gain : Int) (st : CsState) (dx dy : Int) :
    CsState × Option Int :=
  let mag_sq := i32 (dx * dx + dy * dy)
  if mag_sq < 25 then ({ st with active := false }, none)
  else
    let angle := compute_pseudo_angle dx dy
    if st.active = false then ({ active := true, prev_angle := angle }, none)
    else
      let delta := corrected_delta st.prev_angle angle
      let scroll_value := Int.tdiv (i32 (delta * gain)) 1024
      ({ active := true, prev_angle := angle }, some scroll_value)

/-- The concrete instantiation of src/modules/circular_scroll/circular_scroll.c:
gain numerator 1. -/
def trackpad_scroll_process : CsState → Int → Int → CsState × Option Int :=
  trackpad_scroll_process_g 1

/-- `x` fits in C `int16_t` without wraparound. -/
def in_i16 (x : Int) : Prop := -32768 ≤ x ∧ x ≤ 32767

/-- `x` fits in C `uint16_t` without wraparound. -/
def in_u16 (x : Int) : Prop := 0 ≤ x ∧ x ≤ 65535

/-- `x` fits in C 32-bit signed `int` without overflow. -/
def in_i32 (x : Int) : Prop := -2147483648 ≤ x ∧ x ≤ 2147483647

/-- `x` fits in C 32-bit `unsigned int` without wraparound. -/
def in_u32 (x : Int) : Prop := 0 ≤ x ∧ x ≤ 4294967295

/-- Every arithmetic step of the processing pipeline stays inside its C
integer type, for one processed sample `(dx, dy)` against a stored previous
angle `prev`.  The conjuncts follow the source order:
the magnitude-squared dead-zone operand (`int`), the two absolute values
narrowed to `int16_t`, their sum narrowed to `uint16_t`, the ratio
numerator in `unsigned int` and the quotient with its complement
`1024 - ratio` narrowed to `uint16_t` (when the guarded division runs at
all), the final angle stored into the `uint16_t` state field, the
`(int16_t)` casts of angle, the raw and corrected deltas in `int16_t`, and
the scaled products `delta * 10` (pointer instance) and `delta * 1`
(trackpad instance) in `int`. -/
def process_arith_in_range (prev dx dy : Int) : Prop :=
  in_i32 (dx * dx + dy * dy) ∧
  in_i16 |dx| ∧
  in_i16 |dy| ∧
  in_u16 (|dx| + |dy|) ∧
  (¬(|dx| + |dy| = 0) →
    in_u32 (|dy| * 1024) ∧
    in_u16 (|dy| * 1024 / (|dx| + |dy|)) ∧
    in_u16 (1024 - |dy| * 1024 / (|dx| + |dy|))) ∧
  in_u16 (pseudo_angle dx dy) ∧
  in_i16 (pseudo_angle dx dy) ∧
  in_i16 (pseudo_angle dx dy - prev) ∧
  in_i16 (corrected_delta prev (pseudo_angle dx dy)) ∧
  in_i32 (corrected_delta prev (pseudo_angle dx dy) * 10) ∧
  in_i32 (corrected_delta prev (pseudo_angle dx dy) * 1)

/-! ### Helper lemmas -/

theorem i16_id (x : Int) (h1 : -32768 ≤ x) (h2 : x ≤ 32767) : i16 x = x := by
  unfold i16; omega

theorem u16_id (x : Int) (h1 : 0 ≤ x) (h2 : x ≤ 65535) : u16 x = x := by
  unfold u16; omega

theorem u32_id (x : Int) (h1 : 0 ≤ x) (h2 : x ≤ 4294967295) : u32 x = x := by
  unfold u32; omega

theorem sq_le_of_bounds (x b : Int) (h1 : -b ≤ x) (h2 : x ≤ b) : x * x ≤ b * b := by
  nlinarith [mul_nonneg (by linarith : (0:Int) ≤ b - x) (by linarith : (0:Int) ≤ b + x)]

theorem ratio_nonneg (ax ay : Int) (hy : 0 ≤ ay) (hs : 0 ≤ ax + ay) :
    0 ≤ ay * 1024 / (ax + ay) :=
  Int.ediv_nonneg (by linarith) hs

theorem ratio_le_1024 (ax ay : Int) (hx : 0 ≤ ax) (_hy : 0 ≤ ay) (hs : 0 < ax + ay) :
    ay * 1024 / (ax + ay) ≤ 1024 := by
  have h : ay * 1024 / (ax + ay) < 1025 :=
    (Int.ediv_lt_iff_lt_mul hs).mpr (by linarith)
  omega

theorem ratio_le_1023 (ax ay : Int) (hx : 0 < ax) (hy : 0 ≤ ay) :
    ay * 1024 / (ax + ay) ≤ 1023 := by
  have hs : 0 < ax + ay := by linarith
  have h : ay * 1024 / (ax + ay) < 1024 :=
    (Int.ediv_lt_iff_lt_mul hs).mpr (by linarith)
  omega

/-- On inputs away from the `int16_t` minimum (where `abs` wraps), and with
not both coordinates zero, `pseudo_angle` reduces to exact integer
arithmetic with no wraparound: the ratio is `|dy| * 1024 / (|dx| + |dy|)`
and the four quadrant branches are the plain values shown. -/
theorem pseudo_angle_eval (dx dy : Int)
    (hx1 : -32767 ≤ dx) (hx2 : dx ≤ 32767) (hy1 : -32767 ≤ dy) (hy2 : dy ≤ 32767)
    (hnz : ¬(dx = 0 ∧ dy = 0)) :
    pseudo_angle dx dy =
      if 0 ≤ dx ∧ 0 ≤ dy then |dy| * 1024 / (|dx| + |dy|)
      else if dx < 0 ∧ 0 ≤ dy then 2048 - |dy| * 1024 / (|dx| + |dy|)
      else if dx < 0 ∧ dy < 0 then 2048 + |dy| * 1024 / (|dx| + |dy|)
      else 4096 - |dy| * 1024 / (|dx| + |dy|) := by
  have hax1 : 0 ≤ |dx| := abs_nonneg dx
  have hax2 : |dx| ≤ 32767 := abs_le.mpr ⟨hx1, hx2⟩
  have hay1 : 0 ≤ |dy| := abs_nonneg dy
  have hay2 : |dy| ≤ 32767 := abs_le.mpr ⟨hy1, hy2⟩
  have hsum : 0 < |dx| + |dy| := by
    rcases not_and_or.mp hnz with h | h
    · have := abs_pos.mpr h; linarith
    · have := abs_pos.mpr h; linarith
  have hr0 : 0 ≤ |dy| * 1024 / (|dx| + |dy|) := ratio_nonneg _ _ hay1 (le_of_lt hsum)
  have hr1 : |dy| * 1024 / (|dx| + |dy|) ≤ 1024 := ratio_le_1024 _ _ hax1 hay1 hsum
  simp only [pseudo_angle]
  rw [i16_id |dx| (by linarith) (by linarith), i16_id |dy| (by linarith) (by linarith),
    u16_id (|dx| + |dy|) (by linarith) (by linarith), if_neg (by omega),
    u32_id |dy| (by linarith) (by linarith),
    u32_id (|dy| * 1024) (by linarith) (by linarith),
    u16_id (|dy| * 1024 / (|dx| + |dy|)) hr0 (by linarith)]
  split_ifs
  · rfl
  · unfold u16 u32; omega
  · unfold u16; omega
  · unfold u16 u32; omega

/-- Exact bounds of `pseudo_angle` on each sign quadrant, for inputs away
from the `int16_t` minimum. -/
theorem pa_quadrant_bounds (dx dy : Int)
    (hx1 : -32767 ≤ dx) (hx2 : dx ≤ 32767) (hy1 : -32767 ≤ dy) (hy2 : dy ≤ 32767) :
    (0 ≤ dx ∧ 0 ≤ dy → 0 ≤ pseudo_angle dx dy ∧ pseudo_angle dx dy ≤ 1024) ∧
    (dx < 0 ∧ 0 ≤ dy → 1025 ≤ pseudo_angle dx dy ∧ pseudo_angle dx dy ≤ 2048) ∧
    (dx < 0 ∧ dy < 0 → 2048 ≤ pseudo_angle dx dy ∧ pseudo_angle dx dy ≤ 3071) ∧
    (0 ≤ dx ∧ dy < 0 → 3072 ≤ pseudo_angle dx dy ∧ pseudo_angle dx dy ≤ 4096) := by
  by_cases hz : dx = 0 ∧ dy = 0
  · obtain ⟨h1, h2⟩ := hz
    subst h1; subst h2
    refine ⟨fun _ => ?_, fun h => absurd h.1 (by norm_num), fun h => absurd h.1 (by norm_num),
      fun h => absurd h.2 (by norm_num)⟩
    have : pseudo_angle 0 0 = 0 := by decide
    omega
  · rw [pseudo_angle_eval dx dy hx1 hx2 hy1 hy2 hz]
    have hax1 : 0 ≤ |dx| := abs_nonneg dx
    have hay1 : 0 ≤ |dy| := abs_nonneg dy
    have hsum : 0 < |dx| + |dy| := by
      rcases not_and_or.mp hz with h | h
      · have := abs_pos.mpr h; linarith
      · have := abs_pos.mpr h; linarith
    have hr0 : 0 ≤ |dy| * 1024 / (|dx| + |dy|) := ratio_nonneg _ _ hay1 (le_of_lt hsum)
    have hr1 : |dy| * 1024 / (|dx| + |dy|) ≤ 1024 := ratio_le_1024 _ _ hax1 hay1 hsum
    refine ⟨fun h => ?_, fun h => ?_, fun h => ?_, fun h => ?_⟩
    · rw [if_pos h]
      exact ⟨hr0, hr1⟩
    · have hax : 0 < |dx| := abs_pos.mpr (by omega)
      have hr2 : |dy| * 1024 / (|dx| + |dy|) ≤ 1023 := ratio_le_1023 _ _ hax hay1
      rw [if_neg (by omega), if_pos h]
      constructor <;> linarith
    · have hax : 0 < |dx| := abs_pos.mpr (by omega)
      have hr2 : |dy| * 1024 / (|dx| + |dy|) ≤ 1023 := ratio_le_1023 _ _ hax hay1
      rw [if_neg (by omega), if_neg (by omega), if_pos h]
      constructor <;> linarith
    · rw [if_neg (by omega), if_neg (by omega), if_neg (by omega)]
      constructor <;> linarith

/-- Full range of `pseudo_angle` for inputs away from the `int16_t` minimum. -/
theorem pa_range (dx dy : Int)
    (hx1 : -32767 ≤ dx) (hx2 : dx ≤ 32767) (hy1 : -32767 ≤ dy) (hy2 : dy ≤ 32767) :
    0 ≤ pseudo_angle dx dy ∧ pseudo_angle dx dy ≤ 4096 := by
  have h := pa_quadrant_bounds dx dy hx1 hx2 hy1 hy2
  rcases le_or_lt 0 dx with hx | hx <;> rcases le_or_lt 0 dy with hy | hy
  · have := h.1 ⟨hx, hy⟩; constructor <;> linarith
  · have := h.2.2.2 ⟨hx, hy⟩; constructor <;> linarith
  · have := h.2.1 ⟨hx, hy⟩; constructor <;> linarith
  · have := h.2.2.1 ⟨hx, hy⟩; constructor <;> linarith

/-- The wraparound correction maps any pair of angles in [0, 4096] to a
delta in [-2048, 2048]. -/
theorem cd_bounds (prev angle : Int)
    (h1 : 0 ≤ prev) (h2 : prev ≤ 4096) (h3 : 0 ≤ angle) (h4 : angle ≤ 4096) :
    -2048 ≤ corrected_delta prev angle ∧ corrected_delta prev angle ≤ 2048 := by
  simp only [corrected_delta, i16]
  split_ifs <;> omega

/-! ### Claim theorems -/

/-- Claim C1, counterexample: the claim that `pseudo_angle` always returns a
value in the half-open range [0, 4096) is false.  At (1024, -1) the ratio is
`1024 / 1025 = 0` and the fourth-quadrant branch returns `3072 + 1024 =
4096`, which is outside [0, 4096).  Moreover at (0, -32768) the `abs`
narrowing wraps to -32768, the unsigned ratio computation leaves `uint16_t`
range, and the returned value is 5120. -/
theorem pa_half_open_range_cex :
    pseudo_angle 1024 (-1) = 4096 ∧ ¬(pseudo_angle 1024 (-1) < 4096) ∧
    pseudo_angle 0 (-32768) = 5120 := by decide

/-- Claim C1, amended: for all int16 inputs except the value -32768 (on
which the `abs` narrowed to `int16_t` wraps), `pseudo_angle` returns a
value in the closed range [0, 4096]; the endpoint 4096 is attained. -/
theorem pa_total_range (dx dy : Int)
    (hx1 : -32767 ≤ dx) (hx2 : dx ≤ 32767) (hy1 : -32767 ≤ dy) (hy2 : dy ≤ 32767) :
    0 ≤ pseudo_angle dx dy ∧ pseudo_angle dx dy ≤ 4096 :=
  pa_range dx dy hx1 hx2 hy1 hy2

/-- Witness for `pa_total_range` at the concrete input (1024, -1). -/
theorem pa_total_range_witness :
    0 ≤ pseudo_angle 1024 (-1) ∧ pseudo_angle 1024 (-1) ≤ 4096 :=
  pa_total_range 1024 (-1) (by norm_num) (by norm_num) (by norm_num) (by norm_num)

/-- Claim C2, counterexample: the claim that no arithmetic step of the
pipeline overflows its integer type over all int16 input pairs is false.
At dx = dy = -32768 the dead-zone operand `dx * dx + dy * dy = 2^31`
overflows the 32-bit signed `int`, and `abs(-32768) = 32768` does not fit
the `int16_t` it is assigned to. -/
theorem process_no_overflow_cex :
    ¬ process_arith_in_range 0 (-32768) (-32768) ∧
    ¬ in_i32 ((-32768 : Int) * (-32768) + (-32768) * (-32768)) ∧
    ¬ in_i16 |(-32768 : Int)| := by
  refine ⟨?_, by unfold in_i32; decide, by unfold in_i16; decide⟩
  intro h
  simp only [process_arith_in_range, in_i32] at h
  omega

/-- Claim C2, amended: for all int16 inputs except the value -32768, and
for any stored previous angle in [0, 4096] (the range `pseudo_angle`
produces on such inputs, so the range of every reachable Active state),
every arithmetic step of the processing pipeline stays inside its C
integer type. -/
theorem process_no_overflow (prev dx dy : Int)
    (hp1 : 0 ≤ prev) (hp2 : prev ≤ 4096)
    (hx1 : -32767 ≤ dx) (hx2 : dx ≤ 32767) (hy1 : -32767 ≤ dy) (hy2 : dy ≤ 32767) :
    process_arith_in_range prev dx dy := by
  have hxx0 : 0 ≤ dx * dx := mul_self_nonneg dx
  have hyy0 : 0 ≤ dy * dy := mul_self_nonneg dy
  have hxx : dx * dx ≤ 32767 * 32767 := sq_le_of_bounds dx 32767 hx1 hx2
  have hyy : dy * dy ≤ 32767 * 32767 := sq_le_of_bounds dy 32767 hy1 hy2
  have hax1 : 0 ≤ |dx| := abs_nonneg dx
  have hax2 : |dx| ≤ 32767 := abs_le.mpr ⟨hx1, hx2⟩
  have hay1 : 0 ≤ |dy| := abs_nonneg dy
  have hay2 : |dy| ≤ 32767 := abs_le.mpr ⟨hy1, hy2⟩
  have hpa := pa_range dx dy hx1 hx2 hy1 hy2
  have hcd := cd_bounds prev (pseudo_angle dx dy) hp1 hp2 hpa.1 hpa.2
  unfold process_arith_in_range in_i16 in_u16 in_i32 in_u32
  refine ⟨⟨by linarith, by linarith⟩, ⟨by linarith, by linarith⟩,
    ⟨by linarith, by linarith⟩, ⟨by linarith, by linarith⟩, fun hs => ?_,
    ⟨by linarith, by linarith⟩, ⟨by linarith, by linarith⟩,
    ⟨by linarith, by linarith⟩, ⟨by linarith, by linarith⟩,
    ⟨by linarith, by linarith⟩, ⟨by linarith, by linarith⟩⟩
  have hsum : 0 < |dx| + |dy| := by
    rcases lt_or_eq_of_le (by linarith : (0:Int) ≤ |dx| + |dy|) with h | h
    · exact h
    · exact absurd h.symm hs
  have hr0 : 0 ≤ |dy| * 1024 / (|dx| + |dy|) := ratio_nonneg _ _ hay1 (le_of_lt hsum)
  have hr1 : |dy| * 1024 / (|dx| + |dy|) ≤ 1024 := ratio_le_1024 _ _ hax1 hay1 hsum
  exact ⟨⟨by linarith, by linarith⟩, ⟨by linarith, by linarith⟩, ⟨by linarith, by linarith⟩⟩

/-- Witness for `process_no_overflow` at prev = 0, (dx, dy) = (3, 4). -/
theorem process_no_overflow_witness : process_arith_in_range 0 3 4 :=
  process_no_overflow 0 3 4 (by norm_num) (by norm_num) (by norm_num) (by norm_num)
    (by norm_num) (by norm_num)

/-- Claim C3, counterexample: the claimed quadrant sub-ranges are wrong at
the boundaries.  `pseudo_angle (-1) 0 = 2048`, outside the claimed
[1024, 2048) for dx < 0, dy ≥ 0, and `pseudo_angle 0 1 = 1024`, outside
the claimed [0, 1024) for dx ≥ 0, dy ≥ 0. -/
theorem pa_quadrant_cex :
    pseudo_angle (-1) 0 = 2048 ∧ ¬(pseudo_angle (-1) 0 < 2048) ∧
    pseudo_angle 0 1 = 1024 ∧ ¬(pseudo_angle 0 1 < 1024) := by decide

/-- Claim C3, amended: for all int16 inputs except the value -32768, the
estimated angle lies in the quadrant sub-range determined by the signs of
dx and dy, with these exact bounds: [0, 1024] when dx ≥ 0 and dy ≥ 0;
[1025, 2048] when dx < 0 and dy ≥ 0; [2048, 3071] when dx < 0 and dy < 0;
[3072, 4096] when dx ≥ 0 and dy < 0. -/
theorem pa_quadrants (dx dy : Int)
    (hx1 : -32767 ≤ dx) (hx2 : dx ≤ 32767) (hy1 : -32767 ≤ dy) (hy2 : dy ≤ 32767) :
    (0 ≤ dx ∧ 0 ≤ dy → 0 ≤ pseudo_angle dx dy ∧ pseudo_angle dx dy ≤ 1024) ∧
    (dx < 0 ∧ 0 ≤ dy → 1025 ≤ pseudo_angle dx dy ∧ pseudo_angle dx dy ≤ 2048) ∧
    (dx < 0 ∧ dy < 0 → 2048 ≤ pseudo_angle dx dy ∧ pseudo_angle dx dy ≤ 3071) ∧
    (0 ≤ dx ∧ dy < 0 → 3072 ≤ pseudo_angle dx dy ∧ pseudo_angle dx dy ≤ 4096) :=
  pa_quadrant_bounds dx dy hx1 hx2 hy1 hy2

/-- Witness for `pa_quadrants` at the concrete input (3, 4). -/
theorem pa_quadrants_witness :
    ((0:Int) ≤ 3 ∧ (0:Int) ≤ 4 → 0 ≤ pseudo_angle 3 4 ∧ pseudo_angle 3 4 ≤ 1024) ∧
    ((3:Int) < 0 ∧ (0:Int) ≤ 4 → 1025 ≤ pseudo_angle 3 4 ∧ pseudo_angle 3 4 ≤ 2048) ∧
    ((3:Int) < 0 ∧ (4:Int) < 0 → 2048 ≤ pseudo_angle 3 4 ∧ pseudo_angle 3 4 ≤ 3071) ∧
    ((0:Int) ≤ 3 ∧ (4:Int) < 0 → 3072 ≤ pseudo_angle 3 4 ∧ pseudo_angle 3 4 ≤ 4096) :=
  pa_quadrants 3 4 (by norm_num) (by norm_num) (by norm_num) (by norm_num)

/-- Claim C4 (confirmed): from any tracker state and for any gain, a sample
with dx² + dy² < 25 produces no scroll output and leaves the tracker
Inactive. -/
theorem dead_zone_suppresses (g : Int) (st : CsState) (dx dy : Int)
    (h : dx * dx + dy * dy < 25) :
    (circular_scroll_process_g g st dx dy).1.active = false ∧
    (circular_scroll_process_g g st dx dy).2 = none := by
  have h1 : 0 ≤ dx * dx := mul_self_nonneg dx
  have h2 : 0 ≤ dy * dy := mul_self_nonneg dy
  have hmag : i32 (dx * dx + dy * dy) < 25 := by unfold i32; omega
  simp only [circular_scroll_process_g, if_pos hmag]
  constructor <;> trivial

/-- Witness for `dead_zone_suppresses`: gain 10, an Active state, sample (2, 2). -/
theorem dead_zone_suppresses_witness :
    ((2:Int) * 2 + 2 * 2 < 25) ∧
    ((circular_scroll_process_g 10 ⟨true, 777⟩ 2 2).1.active = false ∧
      (circular_scroll_process_g 10 ⟨true, 777⟩ 2 2).2 = none) :=
  ⟨by norm_num, dead_zone_suppresses 10 ⟨true, 777⟩ 2 2 (by norm_num)⟩

/-- Claim C5, counterexample: at dx = dy = -32768 the mathematical
magnitude-squared is 2^31 ≥ 25, but the 32-bit `int` computation of
`mag_sq` wraps to -2^31 < 25, so processing this sample from the Inactive
state takes the dead-zone branch: the state stays Inactive instead of
becoming Active as the claim requires. -/
theorem activation_cex :
    (25:Int) ≤ (-32768) * (-32768) + (-32768) * (-32768) ∧
    circular_scroll_process cs_state_init (-32768) (-32768) =
      ({ active := false, prev_angle := 0 }, none) := by
  constructor
  · norm_num
  · decide

/-- Claim C5, amended: for every int16 sample other than
(dx, dy) = (-32768, -32768) with dx² + dy² ≥ 25, processing from an
Inactive state emits no scroll output and yields the Active state whose
`prev_angle` is that sample's estimated angle. -/
theorem activation_establishes_baseline (g : Int) (st : CsState) (dx dy : Int)
    (hx1 : -32768 ≤ dx) (hx2 : dx ≤ 32767) (hy1 : -32768 ≤ dy) (hy2 : dy ≤ 32767)
    (hne : ¬(dx = -32768 ∧ dy = -32768))
    (hin : st.active = false) (hmag : 25 ≤ dx * dx + dy * dy) :
    circular_scroll_process_g g st dx dy =
      ({ active := true, prev_angle := pseudo_angle dx dy }, none) := by
  have hb : dx * dx + dy * dy ≤ 2147418113 := by
    rcases eq_or_ne dx (-32768) with hdx | hdx
    · have hdy : dy ≠ -32768 := fun hc => hne ⟨hdx, hc⟩
      have h1 : dy * dy ≤ 32767 * 32767 := sq_le_of_bounds dy 32767 (by omega) hy2
      subst hdx
      linarith
    · have h1 : dx * dx ≤ 32767 * 32767 := sq_le_of_bounds dx 32767 (by omega) hx2
      have h2 : dy * dy ≤ 32768 * 32768 := sq_le_of_bounds dy 32768 (by omega) (by omega)
      linarith
  have h1 : 0 ≤ dx * dx := mul_self_nonneg dx
  have h2 : 0 ≤ dy * dy := mul_self_nonneg dy
  have hmag2 : ¬(i32 (dx * dx + dy * dy) < 25) := by unfold i32; omega
  simp only [circular_scroll_process_g, if_neg hmag2, hin]
  exact if_pos trivial

/-- Witness for `activation_establishes_baseline`: gain 7, an Inactive
state with a stale previous angle, sample (10, 0). -/
theorem activation_establishes_baseline_witness :
    circular_scroll_process_g 7 ⟨false, 9⟩ 10 0 =
      ({ active := true, prev_angle := pseudo_angle 10 0 }, none) :=
  activation_establishes_baseline 7 ⟨false, 9⟩ 10 0 (by norm_num) (by norm_num)
    (by norm_num) (by norm_num) (by norm_num) rfl (by norm_num)

/-- Claim C6, counterexample: an Active-state transition whose corrected
delta lies far outside [-2048, 2048] is reachable.  From the initial state,
the sample (7232, -32768) passes the dead-zone test (magnitude-squared
1126043648) and activates with prev_angle = 28633 (the `abs` wraparound
drives the estimated angle far outside [0, 4096]); the next sample (10, 0)
has angle 0, and the corrected delta is -28633 + 4096 = -24537, so the
emitted scroll value is -239. -/
theorem delta_bound_cex :
    (25:Int) ≤ 7232 * 7232 + (-32768) * (-32768) ∧
    circular_scroll_process cs_state_init 7232 (-32768) =
      ({ active := true, prev_angle := 28633 }, none) ∧
    (25:Int) ≤ 10 * 10 + 0 * 0 ∧
    corrected_delta 28633 (pseudo_angle 10 0) = -24537 ∧
    ¬(-2048 ≤ corrected_delta 28633 (pseudo_angle 10 0)) ∧
    circular_scroll_process ⟨true, 28633⟩ 10 0 =
      ({ active := true, prev_angle := 0 }, some (-239)) := by
  refine ⟨by norm_num, by decide, by norm_num, by decide, by decide, by decide⟩

/-- Claim C6, amended: whenever the stored previous angle and the new angle
both lie in [0, 4096] — which holds for every angle produced from samples
with both coordinates in [-32767, 32767] — the wraparound-corrected delta
lies in [-2048, 2048]; in particular for prev_angle = 4000 and new angle
100 the corrected delta equals 196. -/
theorem delta_bound (prev angle : Int)
    (h1 : 0 ≤ prev) (h2 : prev ≤ 4096) (h3 : 0 ≤ angle) (h4 : angle ≤ 4096) :
    (-2048 ≤ corrected_delta prev angle ∧ corrected_delta prev angle ≤ 2048) ∧
    corrected_delta 4000 100 = 196 :=
  ⟨cd_bounds prev angle h1 h2 h3 h4, by decide⟩

/-- Witness for `delta_bound` at prev_angle = 4000, angle = 100. -/
theorem delta_bound_witness :
    ((-2048 ≤ corrected_delta 4000 100 ∧ corrected_delta 4000 100 ≤ 2048) ∧
      corrected_delta 4000 100 = 196) :=
  delta_bound 4000 100 (by norm_num) (by norm_num) (by norm_num) (by norm_num)

/-- Claim C7 (confirmed): the end-to-end scenario with gain numerator 10.
From the initial Inactive state, (10, 0) activates with angle 0 and no
output; (0, 10) has angle 1024 and corrected delta 1024 and emits scroll
value (1024 * 10) / 1024 = 10; (-10, 0) has angle 2048 and corrected delta
1024 and emits 10 again. -/
theorem end_to_end_scenario :
    circular_scroll_process cs_state_init 10 0 =
      ({ active := true, prev_angle := 0 }, none) ∧
    pseudo_angle 0 10 = 1024 ∧
    corrected_delta 0 1024 = 1024 ∧
    circular_scroll_process { active := true, prev_angle := 0 } 0 10 =
      ({ active := true, prev_angle := 1024 }, some 10) ∧
    pseudo_angle (-10) 0 = 2048 ∧
    corrected_delta 1024 2048 = 1024 ∧
    circular_scroll_process { active := true, prev_angle := 1024 } (-10) 0 =
      ({ active := true, prev_angle := 2048 }, some 10) := by decide

/-- Claim C8 (confirmed): the axis and origin values of the angle estimator. -/
theorem axis_values :
    pseudo_angle 1 0 = 0 ∧ pseudo_angle 0 1 = 1024 ∧ pseudo_angle (-1) 0 = 2048 ∧
    pseudo_angle 0 (-1) = 3072 ∧ pseudo_angle 0 0 = 0 := by decide

/-- Claim C9 (confirmed): the two module instantiations implement identical
logic apart from the gain numerator.  The two angle estimators agree on
every input; for every gain, state and input the two process functions
produce identical states and outputs; and the two concrete instantiations
are exactly the generic pipeline at gains 10 and 1. -/
theorem instantiations_equivalent :
    (∀ dx dy : Int, pseudo_angle dx dy = compute_pseudo_angle dx dy) ∧
    (∀ (g : Int) (st : CsState) (dx dy : Int),
      circular_scroll_process_g g st dx dy = trackpad_scroll_process_g g st dx dy) ∧
    circular_scroll_process = circular_scroll_process_g 10 ∧
    trackpad_scroll_process = trackpad_scroll_process_g 1 :=
  ⟨fun _ _ => rfl, fun _ _ _ _ => rfl, rfl, rfl⟩

/-- Claim C10 (confirmed): a dead-zone sample only clears the active flag;
in both module instantiations the stored previous angle survives unchanged
and no output is emitted. -/
theorem dead_zone_preserves_prev_angle (g : Int) (st : CsState) (dx dy : Int)
    (h : dx * dx + dy * dy < 25) :
    circular_scroll_process_g g st dx dy =
      ({ active := false, prev_angle := st.prev_angle }, none) ∧
    trackpad_scroll_process_g g st dx dy =
      ({ active := false, prev_angle := st.prev_angle }, none) := by
  have h1 : 0 ≤ dx * dx := mul_self_nonneg dx
  have h2 : 0 ≤ dy * dy := mul_self_nonneg dy
  have hmag : i32 (dx * dx + dy * dy) < 25 := by unfold i32; omega
  constructor
  · simp only [circular_scroll_process_g, if_pos hmag]
  · simp only [trackpad_scroll_process_g, if_pos hmag]

/-- Witness for `dead_zone_preserves_prev_angle`: gain 5, an Active state
with previous angle 123, sample (1, 2). -/
theorem dead_zone_preserves_prev_angle_witness :
    ((1:Int) * 1 + 2 * 2 < 25) ∧
    (circular_scroll_process_g 5 ⟨true, 123⟩ 1 2 =
      ({ active := false, prev_angle := (123:Int) }, none) ∧
    trackpad_scroll_process_g 5 ⟨true, 123⟩ 1 2 =
      ({ active := false, prev_angle := (123:Int) }, none)) :=
  ⟨by norm_num, dead_zone_preserves_prev_angle 5 ⟨true, 123⟩ 1 2 (by norm_num)⟩
